import Mathlib

/-!
Verification development for `repolist` (`src/repolist/__main__.py`), a CLI
tool that lists GitHub repositories, filters them through a conjunction of
predicates, and renders the survivors with one of three formatters.

The embedding models:
  * JSON-decoded values (`JValue`) and repository records (`Repo`, the
    decoded JSON objects handed back by the API client);
  * Python `==` on such values (`pyEq`), including the `bool`/`int`
    cross-type equality Python inherits from `bool <: int`;
  * the filter constructors `field_filter`, `language_filter`,
    `topic_filter`, `null_filter`, with Python exceptions (`KeyError` on a
    missing dict key, etc.) made explicit in an `Except` result;
  * the `Matcher` (`all(rf(r) for rf in filters)`, short-circuiting, with
    exceptions propagating);
  * `json.dumps(..., indent=4)` and `textwrap.indent`, as used by the
    formatters;
  * the three formatters and their enter/show/exit lifecycle, and the
    record-pulling loop of `main`, with faults in the record stream made
    explicit;
  * the option handling of `main` (defaults, usage-error checks, fetch-call
    selection).
-/

namespace Repolist

/-- JSON values as decoded by the API client (`dict[str, Any]` records).
Numbers are modelled as integers; the five consumed record fields are
booleans, strings, string lists and `null`, so no floating point reaches
any code modelled here. -/
inductive JValue where
  | null
  | bool (b : Bool)
  | num (n : Int)
  | str (s : String)
  | arr (elts : List JValue)
  | obj (fields : List (String × JValue))

/-- A repository record: a Python `dict[str, Any]` with string keys,
preserving insertion order (Python dicts cannot hold duplicate keys). -/
abbrev Repo := List (String × JValue)

/-- Python `r[k]` as a total lookup: `some` the stored value, `none` when the
key is absent (where Python would raise `KeyError`). -/
def lookupKey (r : Repo) (k : String) : Option JValue :=
  (r.find? (fun kv => kv.1 == k)).map (fun kv => kv.2)

mutual
/-- Python `==` on JSON-decoded values.  Scalars compare by value, with the
`bool`/`int` cross-type equality Python inherits from `bool` being an `int`
subclass; lists compare pointwise; dicts are compared field-by-field in
stored order (Python dict equality is order-insensitive, but no code path
modelled here ever compares two dicts, so ordered comparison is adequate);
values of different shapes compare unequal. -/
def pyEq : JValue → JValue → Bool
  | .null, .null => true
  | .bool a, .bool b => a == b
  | .bool a, .num n => (if a then (1 : Int) else 0) == n
  | .num n, .bool b => n == (if b then (1 : Int) else 0)
  | .num a, .num b => a == b
  | .str a, .str b => a == b
  | .arr a, .arr b => pyEqList a b
  | .obj a, .obj b => pyEqFields a b
  | _, _ => false

/-- Pointwise Python `==` on lists of values. -/
def pyEqList : List JValue → List JValue → Bool
  | [], [] => true
  | x :: xs, y :: ys => pyEq x y && pyEqList xs ys
  | _, _ => false

/-- Pointwise Python `==` on dict fields. -/
def pyEqFields : List (String × JValue) → List (String × JValue) → Bool
  | [], [] => true
  | (k, v) :: xs, (k2, v2) :: ys => k == k2 && pyEq v v2 && pyEqFields xs ys
  | _, _ => false
end

/-- A Python exception raised while evaluating a filter or a formatter:
`KeyError` for a missing dict key, `TypeError` for `in` on a non-container,
`AttributeError` for `.lower()` on a non-string. -/
inductive PyErr where
  | keyError (key : String)
  | typeError
  | attributeError
deriving DecidableEq

deriving instance DecidableEq for Except

/-- `RepoFilter = Callable[[Repo], bool]`, with the exceptions Python would
raise made explicit. -/
abbrev RepoFilter := Repo → Except PyErr Bool

/-- `field_filter(field, value)`: `lambda r: bool(r[field] == value)`;
raises `KeyError` when `field` is absent. -/
def field_filter (fieldName : String) (value : JValue) : RepoFilter :=
  fun r =>
    match lookupKey r fieldName with
    | some v => .ok (pyEq v value)
    | none => .error (.keyError fieldName)

/-- Python `str.lower()`, character by character.  Only ASCII letters are
mapped; no value lowercased by the program needs the locale-independent
Unicode mappings beyond ASCII. -/
def strLower (s : String) : String := String.mk (s.data.map Char.toLower)

/-- `language_filter(language)`: lowercases the supplied value once at
construction; at evaluation, a `null` language never matches, a string
language matches iff its lowercased form equals the lowercased supplied
value; a missing key raises `KeyError`, a non-string non-null value raises
`AttributeError` (no `.lower()` method). -/
def language_filter (language : String) : RepoFilter :=
  let language := strLower language
  fun r =>
    match lookupKey r "language" with
    | some .null => .ok false
    | some (.str lang) => .ok (strLower lang == language)
    | some _ => .error .attributeError
    | none => .error (.keyError "language")

/-- Is `needle` a prefix of `hay`? -/
def listIsPrefixOfB : List Char → List Char → Bool
  | [], _ => true
  | _ :: _, [] => false
  | a :: as, b :: bs => a == b && listIsPrefixOfB as bs

/-- Is `needle` a contiguous sublist of `hay`? -/
def listContainsSub (needle : List Char) : List Char → Bool
  | [] => needle.isEmpty
  | c :: rest => listIsPrefixOfB needle (c :: rest) || listContainsSub needle rest

/-- Python `needle in hay` on strings: substring containment. -/
def strContainsSub (hay needle : String) : Bool :=
  listContainsSub needle.toList hay.toList

/-- `topic_filter(topic)`: lowercases the supplied value once at
construction; at evaluation computes Python `topic in r["topics"]`:
membership (by Python `==`) in a list, substring test in a string, key
membership in a dict; `KeyError` on a missing key, `TypeError` on a
non-container value. Note the stored topics are compared verbatim - only
the supplied value is lowercased. -/
def topic_filter (topic : String) : RepoFilter :=
  let topic := strLower topic
  fun r =>
    match lookupKey r "topics" with
    | some (.arr elts) => .ok (elts.any (fun v => pyEq (.str topic) v))
    | some (.str s) => .ok (strContainsSub s topic)
    | some (.obj kvs) => .ok (kvs.any (fun kv => kv.1 == topic))
    | some _ => .error .typeError
    | none => .error (.keyError "topics")

/-- `null_filter`: accepts every record. -/
def null_filter : RepoFilter := fun _ => .ok true

/-- `Matcher.__call__`: `all(rf(r) for rf in self.filters)` - evaluates the
filters in insertion order, short-circuiting on the first `False`, with any
exception propagating. -/
def matcherCall : List RepoFilter → Repo → Except PyErr Bool
  | [], _ => .ok true
  | f :: fs, r =>
    match f r with
    | .error e => .error e
    | .ok false => .ok false
    | .ok true => matcherCall fs r

/-- Does an evaluated filter (or matcher) result denote acceptance? -/
def isOkTrue : Except PyErr Bool → Bool
  | .ok true => true
  | _ => false

/-- Did an evaluated filter return without raising? -/
def isOk : Except PyErr Bool → Bool
  | .ok _ => true
  | .error _ => false

/-- Lowercase hexadecimal digit. -/
def hexDigit (n : Nat) : Char :=
  if n < 10 then Char.ofNat (48 + n) else Char.ofNat (87 + n)

/-- Four lowercase hex digits, as in a JSON `\uXXXX` escape. -/
def hex4 (n : Nat) : String :=
  String.mk [hexDigit (n / 4096 % 16), hexDigit (n / 256 % 16),
             hexDigit (n / 16 % 16), hexDigit (n % 16)]

/-- `json.dumps` escaping of one character with `ensure_ascii` (the
default): the two-character escapes for quote, backslash and the common
control characters, `\uXXXX` for other controls and for all non-ASCII
characters (a surrogate pair above U+FFFF), everything in U+0020..U+007E
but quote and backslash verbatim. -/
def jsonEscapeChar (c : Char) : String :=
  if c = '"' then "\\\""
  else if c = '\\' then "\\\\"
  else if c = '\n' then "\\n"
  else if c = '\t' then "\\t"
  else if c = '\r' then "\\r"
  else if c.toNat = 8 then "\\b"
  else if c.toNat = 12 then "\\f"
  else if 32 ≤ c.toNat ∧ c.toNat ≤ 126 then String.singleton c
  else if c.toNat < 65536 then "\\u" ++ hex4 c.toNat
  else
    "\\u" ++ hex4 (55296 + (c.toNat - 65536) / 1024) ++
    "\\u" ++ hex4 (56320 + (c.toNat - 65536) % 1024)

/-- A JSON string literal as produced by `json.dumps`. -/
def jsonQuote (s : String) : String :=
  "\"" ++ String.join (s.toList.map jsonEscapeChar) ++ "\""

/-- Indentation produced by `json.dumps(..., indent=4)` at nesting depth
`level`. -/
def pad (level : Nat) : String := String.mk (List.replicate (4 * level) ' ')

mutual
/-- `json.dumps(v, indent=4)` rendered at nesting depth `level`: scalars on
one line; empty containers as `[]` or `\x7b\x7d`; non-empty containers with
each item on its own line indented one level deeper, items separated by a
comma and newline, keys joined to values by `: `. -/
def jdumpsAt : Nat → JValue → String
  | _, .null => "null"
  | _, .bool true => "true"
  | _, .bool false => "false"
  | _, .num n => toString n
  | _, .str s => jsonQuote s
  | _, .arr [] => "[]"
  | level, .arr (x :: xs) =>
      "[\n" ++ pad (level + 1) ++ jdumpsAt (level + 1) x ++
      jdumpsItems (level + 1) xs ++ "\n" ++ pad level ++ "]"
  | _, .obj [] => "\x7b\x7d"
  | level, .obj (kv :: kvs) =>
      "\x7b\n" ++ pad (level + 1) ++ jsonQuote kv.1 ++ ": " ++
      jdumpsAt (level + 1) kv.2 ++
      jdumpsFields (level + 1) kvs ++ "\n" ++ pad level ++ "\x7d"

/-- Continuation items of a non-empty JSON array rendering. -/
def jdumpsItems : Nat → List JValue → String
  | _, [] => ""
  | level, x :: xs =>
      ",\n" ++ pad level ++ jdumpsAt level x ++ jdumpsItems level xs

/-- Continuation fields of a non-empty JSON object rendering. -/
def jdumpsFields : Nat → List (String × JValue) → String
  | _, [] => ""
  | level, kv :: kvs =>
      ",\n" ++ pad level ++ jsonQuote kv.1 ++ ": " ++ jdumpsAt level kv.2 ++
      jdumpsFields level kvs
end

/-- `json.dumps(v, indent=4)`. -/
def jdumps (v : JValue) : String := jdumpsAt 0 v

/-- Split a character list at every occurrence of `sep` (the separators are
dropped; `n` separators yield `n + 1` segments). -/
def splitOnChar (sep : Char) : List Char → List (List Char)
  | [] => [[]]
  | c :: rest =>
    match splitOnChar sep rest with
    | [] => [[c]]
    | g :: gs => if c == sep then [] :: g :: gs else (c :: g) :: gs

/-- `textwrap.indent(s, prefixStr)`: prepend `prefixStr` to every line of
`s` that contains a non-whitespace character (no input here contains a
carriage return, so lines are the segments between newline characters). -/
def textwrapIndent (prefixStr s : String) : String :=
  String.intercalate "\n" ((splitOnChar '\n' s.data).map (fun line =>
    if line.any (fun c => !c.isWhitespace) then prefixStr ++ String.mk line
    else String.mk line))

/-- Two lowercase hex digits, as in a Python `\xHH` escape. -/
def hex2 (n : Nat) : String := String.mk [hexDigit (n / 16 % 16), hexDigit (n % 16)]

/-- One character of a Python string `repr` delimited by quote `q`:
escape the delimiter, backslash, newline, carriage return and tab, and
`\xHH` other control characters; printable characters stay verbatim. -/
def pyReprEscapeChar (q : Char) (c : Char) : String :=
  if c = q then "\\" ++ String.singleton q
  else if c = '\\' then "\\\\"
  else if c = '\n' then "\\n"
  else if c = '\r' then "\\r"
  else if c = '\t' then "\\t"
  else if c.toNat < 32 ∨ c.toNat = 127 then "\\x" ++ hex2 c.toNat
  else String.singleton c

/-- Python `repr` of a string: single-quoted, switching to double quotes
when the string contains a single quote but no double quote. -/
def pyReprStr (s : String) : String :=
  let q : Char := if s.data.contains '\'' && !(s.data.contains '"') then '"' else '\''
  String.singleton q ++ String.join (s.toList.map (pyReprEscapeChar q)) ++
  String.singleton q

mutual
/-- Python `repr` of a JSON-decoded value (used by `str` on containers):
`None`/`True`/`False`, decimal integers, `repr` of strings, lists as
`[a, b]`, dicts as `\x7b'k': v\x7d`. -/
def pyRepr : JValue → String
  | .null => "None"
  | .bool true => "True"
  | .bool false => "False"
  | .num n => toString n
  | .str s => pyReprStr s
  | .arr [] => "[]"
  | .arr (x :: xs) => "[" ++ pyRepr x ++ pyReprItems xs ++ "]"
  | .obj [] => "\x7b\x7d"
  | .obj (kv :: kvs) =>
      "\x7b" ++ pyReprStr kv.1 ++ ": " ++ pyRepr kv.2 ++
      pyReprFields kvs ++ "\x7d"

/-- Continuation items of a Python list `repr`. -/
def pyReprItems : List JValue → String
  | [] => ""
  | x :: xs => ", " ++ pyRepr x ++ pyReprItems xs

/-- Continuation fields of a Python dict `repr`. -/
def pyReprFields : List (String × JValue) → String
  | [] => ""
  | kv :: kvs => ", " ++ pyReprStr kv.1 ++ ": " ++ pyRepr kv.2 ++ pyReprFields kvs
end

/-- Python `str` of a JSON-decoded value, as `print` renders it: a string
prints itself, everything else prints its `repr`. -/
def pyStr : JValue → String
  | .str s => s
  | v => pyRepr v

/-- Which of the three formatters was selected (`FullNameFormatter`,
`JsonFormatter`, `ArrayFormatter`). -/
inductive FmtKind where
  | fullName
  | json
  | array
deriving DecidableEq

/-- The only formatter-internal state: `ArrayFormatter.first` ("no record
emitted yet").  The other two formatters are stateless and ignore it. -/
structure FmtState where
  first : Bool
deriving DecidableEq

/-- Output printed by the formatter's `__enter__`: `ArrayFormatter` prints
`[` with no newline, the other two print nothing. -/
def fmtEnter : FmtKind → String
  | .array => "["
  | _ => ""

/-- Output printed (and state produced) by one `show(repo)` call.
`FullNameFormatter` prints `repo["full_name"]` on its own line (raising
`KeyError` when absent); `JsonFormatter` prints the record pretty-printed
with 4-space indentation on its own line; `ArrayFormatter` prints a newline
(first emission, clearing `first`) or `,` and a newline (later emissions),
then the pretty-printed record indented 4 spaces, with no trailing
newline. -/
def fmtShow : FmtKind → FmtState → Repo → Except PyErr (FmtState × String)
  | .fullName, st, r =>
    match lookupKey r "full_name" with
    | some v => .ok (st, pyStr v ++ "\n")
    | none => .error (.keyError "full_name")
  | .json, st, r => .ok (st, jdumps (.obj r) ++ "\n")
  | .array, st, r =>
    if st.first then
      .ok ({ first := false }, "\n" ++ textwrapIndent "    " (jdumps (.obj r)))
    else
      .ok (st, ",\n" ++ textwrapIndent "    " (jdumps (.obj r)))

/-- Output printed by the formatter's `__exit__` given whether an exception
is propagating (`faulted`): `ArrayFormatter` prints nothing when faulted,
and otherwise a newline (only if something was emitted) followed by `]` and
a newline; the other two formatters print nothing. -/
def fmtExit : FmtKind → FmtState → Bool → String
  | .array, st, false => (if st.first then "" else "\n") ++ "]\n"
  | _, _, _ => ""

/-- One pull from the lazy record sequence: either a record or a fault
(transport/API error surfacing from `Client.paginate`) raised at that
pull. -/
abbrev StreamItem := Except PyErr Repo

/-- Result of the record-pulling loop of `main`: final formatter state,
output printed by `show` calls, records actually emitted (in order), and
the fault that aborted the loop, if any. -/
structure LoopResult where
  state : FmtState
  output : String
  emitted : List Repo
  fault : Option PyErr

/-- The `for r in repos: if matcher(r): fmt.show(r)` loop of `main`: pull
records one at a time, test each against the matcher, forward matches to
the formatter; any exception - from the pull itself, the matcher or the
formatter - aborts the loop at once with no record of the remainder
processed. -/
def pullLoop (m : List RepoFilter) (k : FmtKind) :
    FmtState → List StreamItem → LoopResult
  | st, [] => { state := st, output := "", emitted := [], fault := none }
  | st, .error e :: _ => { state := st, output := "", emitted := [], fault := some e }
  | st, .ok r :: rest =>
    match matcherCall m r with
    | .error e => { state := st, output := "", emitted := [], fault := some e }
    | .ok false => pullLoop m k st rest
    | .ok true =>
      match fmtShow k st r with
      | .error e => { state := st, output := "", emitted := [], fault := some e }
      | .ok (st2, out) =>
        let res := pullLoop m k st2 rest
        { res with output := out ++ res.output, emitted := r :: res.emitted }

/-- Total observable outcome of one `with formatter() as fmt: ...` block:
everything printed (enter, emissions, exit) plus the emitted records and
the propagating fault, if any. -/
structure RunResult where
  output : String
  emitted : List Repo
  fault : Option PyErr

/-- The whole formatter lifecycle around the pulling loop: `__enter__`
output, then the loop, then `__exit__` output computed from the final
state and whether a fault is propagating. -/
def runPipeline (m : List RepoFilter) (k : FmtKind) (stream : List StreamItem) :
    RunResult :=
  let res := pullLoop m k { first := true } stream
  { output := fmtEnter k ++ res.output ++ fmtExit k res.state res.fault.isSome,
    emitted := res.emitted,
    fault := res.fault }

/-- The parsed command-line options handed to `main` by the framework.
`archive_filter` and `fork_filter` carry the actual filter values the
mutually exclusive flags select (`null_filter` for the include flags,
`field_filter(..., True)` for the only flags), `formatter` the selected
formatter class, `topic` the repeatable `-T` values in order. -/
structure Opts where
  owner : List String
  formatter : Option FmtKind
  archive_filter : Option RepoFilter
  fork_filter : Option RepoFilter
  language : Option String
  topic : List String
  no_topics : Bool
  visibility : Option String
  affiliation : Option String

/-- The matcher `main` builds (lines 288-302): the archive filter or the
default `field_filter("archived", False)`, then the fork filter or the
default `field_filter("fork", False)`, then the language filter if
requested, then one topic filter per `-T` value in order, then the
topics-empty filter if requested. -/
def buildMatcher (opts : Opts) : List RepoFilter :=
  [opts.archive_filter.getD (field_filter "archived" (.bool false)),
   opts.fork_filter.getD (field_filter "fork" (.bool false))]
  ++ (match opts.language with
      | some l => [language_filter l]
      | none => [])
  ++ opts.topic.map topic_filter
  ++ (if opts.no_topics then [field_filter "topics" (.arr [])] else [])

/-- The filters `main` adds beyond the always-present archived/fork pair:
language, topics, topics-empty. -/
def extraFilters (opts : Opts) : List RepoFilter :=
  (match opts.language with
   | some l => [language_filter l]
   | none => [])
  ++ opts.topic.map topic_filter
  ++ (if opts.no_topics then [field_filter "topics" (.arr [])] else [])

/-- One network fetch: `Client.get_my_repos(visibility, affiliation)` or
`Client.get_repos_for_owner(owner)`. -/
inductive FetchCall where
  | myRepos (visibility affiliation : Option String)
  | reposForOwner (owner : String)
deriving DecidableEq

/-- Everything observable about one invocation of `main`: the usage error
raised (if any), whether the authenticated client was constructed, the
fetches performed, the record sequence presented to the matcher, and the
run's printed output, emitted records and propagating fault. -/
structure MainResult where
  usageError : Option String
  clientConstructed : Bool
  fetchCalls : List FetchCall
  source : List Repo
  output : String
  emitted : List Repo
  fault : Option PyErr

/-- The record sequence `main` presents to the matcher: the per-owner
streams concatenated in command-line order in named-owner mode, the
authenticated user's own stream in self mode. -/
def sourceRepos (opts : Opts) (myRepos : List Repo)
    (ownerRepos : String → List Repo) : List Repo :=
  if !opts.owner.isEmpty then opts.owner.flatMap ownerRepos else myRepos

/-- `main`, with the network abstracted to two oracles giving the records
each endpoint would yield: default the formatter to `FullNameFormatter` and
build the matcher from the flags; reject (with a usage error, before
constructing the client or fetching anything) a visibility or affiliation
option combined with any owner argument; otherwise construct the client,
select the fetches (one per owner in command-line order, or a single
self fetch carrying the visibility/affiliation refinements), and drive the
fetch-filter-show loop inside the formatter's lifecycle. -/
def mainModel (opts : Opts) (myRepos : List Repo)
    (ownerRepos : String → List Repo) : MainResult :=
  let fmt := opts.formatter.getD .fullName
  let matcher := buildMatcher opts
  if opts.visibility.isSome && !opts.owner.isEmpty then
    { usageError := some "Public/private options cannot be used when listing repositories for other users",
      clientConstructed := false, fetchCalls := [], source := [],
      output := "", emitted := [], fault := none }
  else if opts.affiliation.isSome && !opts.owner.isEmpty then
    { usageError := some "--affiliation cannot be used when listing repositories for other users",
      clientConstructed := false, fetchCalls := [], source := [],
      output := "", emitted := [], fault := none }
  else
    let calls :=
      if !opts.owner.isEmpty then opts.owner.map FetchCall.reposForOwner
      else [FetchCall.myRepos opts.visibility opts.affiliation]
    let repos := sourceRepos opts myRepos ownerRepos
    let res := runPipeline matcher fmt (repos.map Except.ok)
    { usageError := none, clientConstructed := true, fetchCalls := calls,
      source := repos, output := res.output, emitted := res.emitted,
      fault := res.fault }

/-- All-defaulted options: no owners, no flags, no filters requested. -/
def defaultOpts : Opts :=
  { owner := [], formatter := none, archive_filter := none,
    fork_filter := none, language := none, topic := [], no_topics := false,
    visibility := none, affiliation := none }

/-- Can the formatter's `show` run on this record without raising?  Only
`FullNameFormatter` can raise (a `KeyError` on a record without
`full_name`); the JSON formatters serialize any record. -/
def showOk : FmtKind → Repo → Bool
  | .fullName, r => (lookupKey r "full_name").isSome
  | .json, _ => true
  | .array, _ => true

/-- A record as the array formatter prints it: pretty-printed with 4-space
indentation and indented 4 spaces. -/
def indentedObj (r : Repo) : String := textwrapIndent "    " (jdumps (.obj r))

/-- Does the record carry key `k` with a boolean value? -/
def hasBoolKey (r : Repo) (k : String) : Bool :=
  match lookupKey r k with
  | some (.bool _) => true
  | _ => false

/-- The spec's default-filter predicate: `archived == false` and
`fork == false`. -/
def specDefaultPred (r : Repo) : Bool :=
  (match lookupKey r "archived" with
   | some (.bool false) => true
   | _ => false)
  && (match lookupKey r "fork" with
      | some (.bool false) => true
      | _ => false)

/-- Continuation emissions of the array formatter (all but the first):
each object preceded by `,` and a newline. -/
def arrayCont : List Repo → String
  | [] => ""
  | r :: rs => ",\n" ++ indentedObj r ++ arrayCont rs

/-- The text the array formatter's `show` calls print for a given emitted
record list: nothing when nothing is emitted; otherwise a newline, the
first indented object, and each further object preceded by `,` and a
newline. -/
def arrayEmits : List Repo → String
  | [] => ""
  | r :: rs => "\n" ++ indentedObj r ++ arrayCont rs

/-! ### General lemmas about the matcher -/

theorem list_all_perm {α : Type} {l1 l2 : List α} (h : l1.Perm l2) (p : α → Bool) :
    l1.all p = l2.all p := by
  rw [Bool.eq_iff_iff, List.all_eq_true, List.all_eq_true]
  constructor
  · intro ha x hx; exact ha x (h.mem_iff.mpr hx)
  · intro ha x hx; exact ha x (h.mem_iff.mp hx)

theorem matcherCall_append (fs gs : List RepoFilter) (r : Repo) :
    matcherCall (fs ++ gs) r =
      match matcherCall fs r with
      | .ok true => matcherCall gs r
      | .ok false => .ok false
      | .error e => .error e := by
  induction fs with
  | nil => simp [matcherCall]
  | cons f fs ih =>
    simp only [List.cons_append, matcherCall]
    cases f r with
    | error e => rfl
    | ok b => cases b <;> simp [ih]

theorem matcherCall_all (m : List RepoFilter) (r : Repo)
    (h : ∀ f ∈ m, isOk (f r) = true) :
    matcherCall m r = .ok (m.all (fun f => isOkTrue (f r))) := by
  induction m with
  | nil => simp [matcherCall]
  | cons f fs ih =>
    have hf := h f (List.mem_cons_self f fs)
    cases hfr : f r with
    | error e => rw [hfr] at hf; simp [isOk] at hf
    | ok b =>
      cases b
      · simp [matcherCall, hfr, isOkTrue]
      · simp [matcherCall, hfr, isOkTrue,
              ih (fun g hg => h g (List.mem_cons_of_mem f hg))]

theorem matcherCall_true_of_all (m : List RepoFilter) (r : Repo)
    (h : ∀ f ∈ m, f r = .ok true) :
    matcherCall m r = .ok true := by
  induction m with
  | nil => rfl
  | cons f fs ih =>
    simp [matcherCall, h f (List.mem_cons_self f fs),
          ih (fun g hg => h g (List.mem_cons_of_mem f hg))]

theorem matcherCall_dup (pre post : List RepoFilter) (f : RepoFilter) (r : Repo) :
    matcherCall (pre ++ f :: f :: post) r = matcherCall (pre ++ f :: post) r := by
  rw [matcherCall_append, matcherCall_append]
  cases matcherCall pre r with
  | error e => rfl
  | ok b =>
    cases b
    · rfl
    · simp only [matcherCall]
      cases hfr : f r with
      | error e => rfl
      | ok b2 => cases b2 <;> simp [matcherCall, hfr]

theorem pyEq_str_iff (s : String) (v : JValue) :
    pyEq (.str s) v = true ↔ v = .str s := by
  cases v with
  | str t =>
    show (s == t) = true ↔ JValue.str t = JValue.str s
    rw [beq_iff_eq]
    constructor
    · intro h; rw [h]
    · intro h; cases h; rfl
  | null =>
    exact ⟨fun h => absurd h Bool.false_ne_true, fun h => JValue.noConfusion h⟩
  | bool b =>
    exact ⟨fun h => absurd h Bool.false_ne_true, fun h => JValue.noConfusion h⟩
  | num n =>
    exact ⟨fun h => absurd h Bool.false_ne_true, fun h => JValue.noConfusion h⟩
  | arr elts =>
    exact ⟨fun h => absurd h Bool.false_ne_true, fun h => JValue.noConfusion h⟩
  | obj kvs =>
    exact ⟨fun h => absurd h Bool.false_ne_true, fun h => JValue.noConfusion h⟩

/-! ### Claims about the individual filters -/

/-- Boolean rendering of the spec's description of the topic filter
("case-insensitive membership test of a supplied value in `topics`"), to be
compared against the `topic_filter` of the code: is some stored topic equal
to the supplied value up to case? -/
def specTopicMatches (t : String) (elts : List JValue) : Bool :=
  elts.any (fun v =>
    match v with
    | .str s => strLower s == strLower t
    | _ => false)

/-- C1, as stated, is false on the code: the record with
`topics = ["Go"]` contains the topic `"GO"` under case-insensitive
comparison, yet `topic_filter("GO")` rejects it - the code lowercases only
the supplied value and compares it verbatim against the stored topics. -/
theorem claim_C1_counterexample :
    topic_filter "GO" [("topics", JValue.arr [JValue.str "Go"])] = Except.ok false
    ∧ specTopicMatches "GO" [JValue.str "Go"] = true := by
  exact ⟨by decide, by decide⟩

/-- C1 (amended): for every record whose `topics` key holds a sequence, a
topic filter built from the supplied value `t` matches iff the *lowercased*
form of `t` occurs verbatim in the stored topics sequence - case
normalization is applied to the supplied value only, never to the stored
topics. -/
theorem claim_C1 (t : String) (r : Repo) (elts : List JValue)
    (h : lookupKey r "topics" = some (JValue.arr elts)) :
    (topic_filter t r = Except.ok true ↔ JValue.str (strLower t) ∈ elts) := by
  simp only [topic_filter, h, Except.ok.injEq, List.any_eq_true]
  constructor
  · rintro ⟨v, hv, hveq⟩
    exact ((pyEq_str_iff _ v).mp hveq) ▸ hv
  · intro hmem
    exact ⟨JValue.str (strLower t), hmem, (pyEq_str_iff _ _).mpr rfl⟩

/-- Witness for C1 (amended) at `t = "GO"`, `topics = ["go"]`. -/
theorem claim_C1_witness :
    topic_filter "GO" [("topics", JValue.arr [JValue.str "go"])] = Except.ok true
    ↔ JValue.str (strLower "GO") ∈ [JValue.str "go"] :=
  claim_C1 "GO" [("topics", JValue.arr [JValue.str "go"])] [JValue.str "go"] rfl

/-- C8: for every record whose `language` key is present (a string or
null), the language filter built from `t` matches iff the language is
non-null and equals `t` up to case; a null language never matches. -/
theorem claim_C8 (t : String) (r : Repo) :
    (lookupKey r "language" = some JValue.null →
      language_filter t r = Except.ok false)
    ∧ (∀ s, lookupKey r "language" = some (JValue.str s) →
        (language_filter t r = Except.ok true ↔ strLower s = strLower t)) := by
  constructor
  · intro h
    simp [language_filter, h]
  · intro s h
    simp [language_filter, h]

/-- Witness for C8 at `t = "go"`, against a record with `language = "Go"`
and a record with `language = null`. -/
theorem claim_C8_witness :
    language_filter "go" [("language", JValue.null)] = Except.ok false
    ∧ (language_filter "go" [("language", JValue.str "Go")] = Except.ok true
        ↔ strLower "Go" = strLower "go") :=
  ⟨(claim_C8 "go" [("language", JValue.null)]).1 rfl,
   (claim_C8 "go" [("language", JValue.str "Go")]).2 "Go" rfl⟩

/-- C3: the matcher's verdict on a record does not depend on the order in
which the filters were inserted: any permutation of the same filter list
(each filter returning a boolean on the record, as the spec's `Filter`
contract requires) yields the same outcome. -/
theorem claim_C3 (r : Repo) (l1 l2 : List RepoFilter) (hperm : l1.Perm l2)
    (htotal : ∀ f ∈ l1, isOk (f r) = true) :
    matcherCall l1 r = matcherCall l2 r := by
  rw [matcherCall_all l1 r htotal,
      matcherCall_all l2 r (fun f hf => htotal f (hperm.mem_iff.mpr hf)),
      list_all_perm hperm]

/-- Witness for C3: swapping the two default filters preserves the verdict
on a concrete record. -/
theorem claim_C3_witness :
    matcherCall [field_filter "archived" (JValue.bool false),
                 field_filter "fork" (JValue.bool false)]
        [("archived", JValue.bool false), ("fork", JValue.bool true)]
    = matcherCall [field_filter "fork" (JValue.bool false),
                   field_filter "archived" (JValue.bool false)]
        [("archived", JValue.bool false), ("fork", JValue.bool true)] :=
  claim_C3 [("archived", JValue.bool false), ("fork", JValue.bool true)]
    [field_filter "archived" (JValue.bool false),
     field_filter "fork" (JValue.bool false)]
    [field_filter "fork" (JValue.bool false),
     field_filter "archived" (JValue.bool false)]
    (List.Perm.swap _ _ _)
    (by
      intro f hf
      rcases List.mem_cons.mp hf with h | h
      · subst h; rfl
      · rcases List.mem_cons.mp h with h2 | h2
        · subst h2; rfl
        · cases h2)

/-- C10: giving the same `-T` value twice builds a matcher that accepts a
record (carrying a `topics` sequence) exactly when the matcher built with
that value given once does. -/
theorem claim_C10 (opts : Opts) (t : String) (r : Repo) (elts : List JValue)
    (_h : lookupKey r "topics" = some (JValue.arr elts)) :
    (matcherCall (buildMatcher { opts with topic := [t, t] }) r = Except.ok true
     ↔ matcherCall (buildMatcher { opts with topic := [t] }) r = Except.ok true) := by
  have key := matcherCall_dup
    ((opts.archive_filter.getD (field_filter "archived" (JValue.bool false))) ::
      (opts.fork_filter.getD (field_filter "fork" (JValue.bool false))) ::
      (match opts.language with
       | some l => [language_filter l]
       | none => []))
    (if opts.no_topics then [field_filter "topics" (JValue.arr [])] else [])
    (topic_filter t) r
  simp only [buildMatcher, List.map_cons, List.map_nil, List.cons_append,
             List.nil_append, List.append_assoc] at key ⊢
  rw [key]

/-- Witness for C10 at `t = "cli"` against a record whose topics are
`["cli"]`, with all other options defaulted. -/
theorem claim_C10_witness :
    (matcherCall (buildMatcher { defaultOpts with topic := ["cli", "cli"] })
      [("archived", JValue.bool false), ("fork", JValue.bool false),
       ("topics", JValue.arr [JValue.str "cli"])] = Except.ok true
     ↔ matcherCall (buildMatcher { defaultOpts with topic := ["cli"] })
      [("archived", JValue.bool false), ("fork", JValue.bool false),
       ("topics", JValue.arr [JValue.str "cli"])] = Except.ok true) :=
  claim_C10 defaultOpts "cli"
    [("archived", JValue.bool false), ("fork", JValue.bool false),
     ("topics", JValue.arr [JValue.str "cli"])]
    [JValue.str "cli"] rfl

/-! ### Lemmas about the pulling loop -/

theorem isOkTrue_ok (x : Bool) : isOkTrue (.ok x) = x := by
  cases x <;> rfl

theorem fmtShow_isOk (k : FmtKind) (r : Repo) (h : showOk k r = true)
    (st : FmtState) : ∃ p, fmtShow k st r = .ok p := by
  cases k with
  | fullName =>
    cases hl : lookupKey r "full_name" with
    | none => rw [showOk, hl] at h; exact absurd h Bool.false_ne_true
    | some v => exact ⟨_, by rw [fmtShow, hl]⟩
  | json => exact ⟨_, rfl⟩
  | array =>
    cases hf : st.first with
    | true => exact ⟨_, by rw [fmtShow, hf]; rfl⟩
    | false => exact ⟨_, by rw [fmtShow, hf]; rfl⟩

theorem pullLoop_clean (m : List RepoFilter) (k : FmtKind)
    (records : List Repo) (st : FmtState)
    (hm : ∀ r ∈ records, isOk (matcherCall m r) = true)
    (hs : ∀ r ∈ records, showOk k r = true) :
    (pullLoop m k st (records.map Except.ok)).fault = none ∧
    (pullLoop m k st (records.map Except.ok)).emitted =
      records.filter (fun r => isOkTrue (matcherCall m r)) := by
  induction records generalizing st with
  | nil => exact ⟨rfl, rfl⟩
  | cons r rest ih =>
    have hmr := hm r (List.mem_cons_self r rest)
    have hm2 : ∀ x ∈ rest, isOk (matcherCall m x) = true :=
      fun x hx => hm x (List.mem_cons_of_mem r hx)
    have hs2 : ∀ x ∈ rest, showOk k x = true :=
      fun x hx => hs x (List.mem_cons_of_mem r hx)
    cases hmc : matcherCall m r with
    | error e => rw [hmc] at hmr; exact absurd hmr Bool.false_ne_true
    | ok b =>
      cases b
      · have := ih st hm2 hs2
        simpa [pullLoop, hmc, List.filter_cons, isOkTrue] using this
      · obtain ⟨⟨st2, out⟩, hp⟩ :=
          fmtShow_isOk k r (hs r (List.mem_cons_self r rest)) st
        have := ih st2 hm2 hs2
        simpa [pullLoop, hmc, hp, List.filter_cons, isOkTrue] using this

theorem pullLoop_append_ok (m : List RepoFilter) (k : FmtKind) (st : FmtState)
    (s1 s2 : List StreamItem) (h : (pullLoop m k st s1).fault = none) :
    pullLoop m k st (s1 ++ s2) =
      { state := (pullLoop m k (pullLoop m k st s1).state s2).state,
        output := (pullLoop m k st s1).output ++
          (pullLoop m k (pullLoop m k st s1).state s2).output,
        emitted := (pullLoop m k st s1).emitted ++
          (pullLoop m k (pullLoop m k st s1).state s2).emitted,
        fault := (pullLoop m k (pullLoop m k st s1).state s2).fault } := by
  induction s1 generalizing st with
  | nil => simp [pullLoop]
  | cons item rest ih =>
    cases item with
    | error e => rw [pullLoop] at h; exact absurd h (by simp)
    | ok r =>
      cases hmc : matcherCall m r with
      | error e => rw [pullLoop, hmc] at h; exact absurd h (by simp)
      | ok b =>
        cases b
        · have h2 : (pullLoop m k st (rest : List StreamItem)).fault = none := by
            rw [pullLoop, hmc] at h; exact h
          simpa [pullLoop, hmc] using ih st h2
        · cases hsh : fmtShow k st r with
          | error e => rw [pullLoop, hmc, hsh] at h; exact absurd h (by simp)
          | ok p =>
            obtain ⟨st2, out⟩ := p
            have h2 : (pullLoop m k st2 rest).fault = none := by
              rw [pullLoop, hmc, hsh] at h; exact h
            simp [pullLoop, hmc, hsh, ih st2 h2, String.append_assoc]

/-! ### Claims about the filter pipeline in `main` -/

/-- C2: with the archive/fork flags defaulted (and a usage-error-free
invocation) on a record stream whose records carry boolean `archived` and
`fork` keys and fault in no requested extra filter nor in the formatter,
the run completes without fault and emits exactly the records with
`archived == false` and `fork == false`, intersected with the records
accepted by every additionally requested filter (language/topic/no-topics,
in that construction order). -/
theorem claim_C2 (opts : Opts) (myRepos : List Repo)
    (ownerRepos : String → List Repo)
    (harch : opts.archive_filter = none) (hfork : opts.fork_filter = none)
    (hvis : opts.visibility = none) (haff : opts.affiliation = none)
    (hrecs : (sourceRepos opts myRepos ownerRepos).all (fun r =>
        hasBoolKey r "archived" && hasBoolKey r "fork"
        && (extraFilters opts).all (fun g => isOk (g r))
        && showOk (opts.formatter.getD .fullName) r) = true) :
    (mainModel opts myRepos ownerRepos).fault = none ∧
    (mainModel opts myRepos ownerRepos).emitted =
      (sourceRepos opts myRepos ownerRepos).filter
        (fun r => specDefaultPred r
          && (extraFilters opts).all (fun g => isOkTrue (g r))) := by
  have hb : buildMatcher opts =
      field_filter "archived" (JValue.bool false) ::
      field_filter "fork" (JValue.bool false) :: extraFilters opts := by
    simp [buildMatcher, extraFilters, harch, hfork]
  have hsrc := List.all_eq_true.mp hrecs
  have hpoint : ∀ r ∈ sourceRepos opts myRepos ownerRepos,
      (∃ a, lookupKey r "archived" = some (JValue.bool a)) ∧
      (∃ b, lookupKey r "fork" = some (JValue.bool b)) ∧
      (∀ g ∈ extraFilters opts, isOk (g r) = true) ∧
      showOk (opts.formatter.getD .fullName) r = true := by
    intro r hr
    have h4 := hsrc r hr
    rw [Bool.and_eq_true, Bool.and_eq_true, Bool.and_eq_true] at h4
    obtain ⟨⟨⟨ha, hf⟩, he⟩, hshow⟩ := h4
    refine ⟨?_, ?_, List.all_eq_true.mp he, hshow⟩
    · rw [hasBoolKey] at ha
      cases hl : lookupKey r "archived" with
      | none => rw [hl] at ha; exact absurd ha Bool.false_ne_true
      | some v =>
        cases v with
        | bool a => exact ⟨a, rfl⟩
        | null => rw [hl] at ha; exact absurd ha Bool.false_ne_true
        | num n => rw [hl] at ha; exact absurd ha Bool.false_ne_true
        | str s => rw [hl] at ha; exact absurd ha Bool.false_ne_true
        | arr elts => rw [hl] at ha; exact absurd ha Bool.false_ne_true
        | obj kvs => rw [hl] at ha; exact absurd ha Bool.false_ne_true
    · rw [hasBoolKey] at hf
      cases hl : lookupKey r "fork" with
      | none => rw [hl] at hf; exact absurd hf Bool.false_ne_true
      | some v =>
        cases v with
        | bool a => exact ⟨a, rfl⟩
        | null => rw [hl] at hf; exact absurd hf Bool.false_ne_true
        | num n => rw [hl] at hf; exact absurd hf Bool.false_ne_true
        | str s => rw [hl] at hf; exact absurd hf Bool.false_ne_true
        | arr elts => rw [hl] at hf; exact absurd hf Bool.false_ne_true
        | obj kvs => rw [hl] at hf; exact absurd hf Bool.false_ne_true
  have hmall : ∀ r ∈ sourceRepos opts myRepos ownerRepos,
      isOk (matcherCall (buildMatcher opts) r) = true ∧
      isOkTrue (matcherCall (buildMatcher opts) r) =
        (specDefaultPred r
          && (extraFilters opts).all (fun g => isOkTrue (g r))) := by
    intro r hr
    obtain ⟨⟨a, ha⟩, ⟨b, hfk⟩, he, _⟩ := hpoint r hr
    have hfilters : ∀ f ∈ buildMatcher opts, isOk (f r) = true := by
      intro f hfm
      rw [hb] at hfm
      rcases List.mem_cons.mp hfm with hh | hfm2
      · subst hh; simp only [field_filter]; rw [ha]; rfl
      · rcases List.mem_cons.mp hfm2 with hh | hfm3
        · subst hh; simp only [field_filter]; rw [hfk]; rfl
        · exact he f hfm3
    have hcall := matcherCall_all (buildMatcher opts) r hfilters
    refine ⟨by rw [hcall]; rfl, ?_⟩
    rw [hcall, isOkTrue_ok]
    rw [hb, List.all_cons, List.all_cons]
    have e1 : isOkTrue (field_filter "archived" (JValue.bool false) r)
        = (match lookupKey r "archived" with
           | some (.bool false) => true
           | _ => false) := by
      simp only [field_filter]; rw [ha]; cases a <;> rfl
    have e2 : isOkTrue (field_filter "fork" (JValue.bool false) r)
        = (match lookupKey r "fork" with
           | some (.bool false) => true
           | _ => false) := by
      simp only [field_filter]; rw [hfk]; cases b <;> rfl
    rw [e1, e2, specDefaultPred, Bool.and_assoc]
  have hclean := pullLoop_clean (buildMatcher opts)
      (opts.formatter.getD .fullName)
      (sourceRepos opts myRepos ownerRepos) { first := true }
      (fun r hr => (hmall r hr).1)
      (fun r hr => (hpoint r hr).2.2.2)
  have hfields :
      (mainModel opts myRepos ownerRepos).fault =
        (pullLoop (buildMatcher opts) (opts.formatter.getD .fullName)
          { first := true }
          ((sourceRepos opts myRepos ownerRepos).map Except.ok)).fault ∧
      (mainModel opts myRepos ownerRepos).emitted =
        (pullLoop (buildMatcher opts) (opts.formatter.getD .fullName)
          { first := true }
          ((sourceRepos opts myRepos ownerRepos).map Except.ok)).emitted := by
    rw [mainModel]
    simp only [hvis, haff, Option.isSome_none, Bool.false_and, Bool.and_eq_true,
               if_neg, runPipeline]
    exact ⟨rfl, rfl⟩
  refine ⟨hfields.1.trans hclean.1, hfields.2.trans (hclean.2.trans ?_)⟩
  exact List.filter_congr (fun r hr => (hmall r hr).2)

/-- Witness for C2: a language filter on `"Go"` over three records; the
archived record and the null-language record are dropped, the matching
record survives. -/
theorem claim_C2_witness :
    (mainModel { defaultOpts with language := some "Go" }
      [[("full_name", JValue.str "u/a"), ("archived", JValue.bool false),
        ("fork", JValue.bool false), ("language", JValue.str "go")],
       [("full_name", JValue.str "u/b"), ("archived", JValue.bool true),
        ("fork", JValue.bool false), ("language", JValue.str "go")],
       [("full_name", JValue.str "u/c"), ("archived", JValue.bool false),
        ("fork", JValue.bool false), ("language", JValue.null)]]
      (fun _ => [])).fault = none ∧
    (mainModel { defaultOpts with language := some "Go" }
      [[("full_name", JValue.str "u/a"), ("archived", JValue.bool false),
        ("fork", JValue.bool false), ("language", JValue.str "go")],
       [("full_name", JValue.str "u/b"), ("archived", JValue.bool true),
        ("fork", JValue.bool false), ("language", JValue.str "go")],
       [("full_name", JValue.str "u/c"), ("archived", JValue.bool false),
        ("fork", JValue.bool false), ("language", JValue.null)]]
      (fun _ => [])).emitted =
      (sourceRepos { defaultOpts with language := some "Go" }
        [[("full_name", JValue.str "u/a"), ("archived", JValue.bool false),
          ("fork", JValue.bool false), ("language", JValue.str "go")],
         [("full_name", JValue.str "u/b"), ("archived", JValue.bool true),
          ("fork", JValue.bool false), ("language", JValue.str "go")],
         [("full_name", JValue.str "u/c"), ("archived", JValue.bool false),
          ("fork", JValue.bool false), ("language", JValue.null)]]
        (fun _ => [])).filter
        (fun r => specDefaultPred r
          && (extraFilters { defaultOpts with language := some "Go" }).all
              (fun g => isOkTrue (g r))) :=
  claim_C2 { defaultOpts with language := some "Go" }
    [[("full_name", JValue.str "u/a"), ("archived", JValue.bool false),
      ("fork", JValue.bool false), ("language", JValue.str "go")],
     [("full_name", JValue.str "u/b"), ("archived", JValue.bool true),
      ("fork", JValue.bool false), ("language", JValue.str "go")],
     [("full_name", JValue.str "u/c"), ("archived", JValue.bool false),
      ("fork", JValue.bool false), ("language", JValue.null)]]
    (fun _ => []) rfl rfl rfl rfl (by decide)

/-- C4: when a record missing key `key` reaches an active
`field_filter(key, v)` (every filter before it accepts the record, and the
stream up to that record was processed without fault), the `KeyError`
propagates as the run's fault, the record is not emitted, and nothing after
it is processed - the whole run result is independent of the remainder of
the stream. -/
theorem claim_C4 (fs1 fs2 : List RepoFilter) (key : String) (v : JValue)
    (k : FmtKind) (pre : List Repo) (bad : Repo)
    (post post2 : List StreamItem)
    (hmiss : lookupKey bad key = none)
    (hreach : ∀ f ∈ fs1, f bad = Except.ok true)
    (hpre : (pullLoop (fs1 ++ field_filter key v :: fs2) k { first := true }
        (pre.map Except.ok)).fault = none) :
    runPipeline (fs1 ++ field_filter key v :: fs2) k
        (pre.map Except.ok ++ Except.ok bad :: post)
      = runPipeline (fs1 ++ field_filter key v :: fs2) k
        (pre.map Except.ok ++ Except.ok bad :: post2)
    ∧ (runPipeline (fs1 ++ field_filter key v :: fs2) k
        (pre.map Except.ok ++ Except.ok bad :: post)).fault
        = some (.keyError key)
    ∧ (runPipeline (fs1 ++ field_filter key v :: fs2) k
        (pre.map Except.ok ++ Except.ok bad :: post)).emitted
      = (pullLoop (fs1 ++ field_filter key v :: fs2) k { first := true }
          (pre.map Except.ok)).emitted := by
  have hff : field_filter key v bad = .error (.keyError key) := by
    simp only [field_filter]; rw [hmiss]
  have hbad : matcherCall (fs1 ++ field_filter key v :: fs2) bad
      = .error (.keyError key) := by
    rw [matcherCall_append, matcherCall_true_of_all fs1 bad hreach]
    show matcherCall (field_filter key v :: fs2) bad = _
    simp [matcherCall, hff]
  have hstep : ∀ (st : FmtState) (ps : List StreamItem),
      pullLoop (fs1 ++ field_filter key v :: fs2) k st (Except.ok bad :: ps)
        = { state := st, output := "", emitted := [],
            fault := some (.keyError key) } := by
    intro st ps
    simp [pullLoop, hbad]
  have h1 := pullLoop_append_ok (fs1 ++ field_filter key v :: fs2) k
    { first := true } (pre.map Except.ok) (Except.ok bad :: post) hpre
  have h2 := pullLoop_append_ok (fs1 ++ field_filter key v :: fs2) k
    { first := true } (pre.map Except.ok) (Except.ok bad :: post2) hpre
  rw [hstep] at h1 h2
  refine ⟨?_, ?_, ?_⟩
  · rw [runPipeline, runPipeline, h1, h2]
  · show (pullLoop (fs1 ++ field_filter key v :: fs2) k { first := true }
      (pre.map Except.ok ++ Except.ok bad :: post)).fault = _
    rw [h1]
  · show (pullLoop (fs1 ++ field_filter key v :: fs2) k { first := true }
      (pre.map Except.ok ++ Except.ok bad :: post)).emitted = _
    rw [h1]
    exact List.append_nil _

/-- Witness for C4: under the default matcher, a record without
`archived` aborts the run after one good record, identically for two
different stream remainders. -/
theorem claim_C4_witness :
    runPipeline ([] ++ field_filter "archived" (JValue.bool false) ::
        [field_filter "fork" (JValue.bool false)]) FmtKind.fullName
      ([[("full_name", JValue.str "u/a"), ("archived", JValue.bool false),
         ("fork", JValue.bool false)]].map Except.ok
        ++ Except.ok [("full_name", JValue.str "u/b")] ::
          [Except.ok [("full_name", JValue.str "u/c"),
            ("archived", JValue.bool false), ("fork", JValue.bool false)]])
      = runPipeline ([] ++ field_filter "archived" (JValue.bool false) ::
          [field_filter "fork" (JValue.bool false)]) FmtKind.fullName
        ([[("full_name", JValue.str "u/a"), ("archived", JValue.bool false),
           ("fork", JValue.bool false)]].map Except.ok
          ++ Except.ok [("full_name", JValue.str "u/b")] :: [])
    ∧ (runPipeline ([] ++ field_filter "archived" (JValue.bool false) ::
          [field_filter "fork" (JValue.bool false)]) FmtKind.fullName
        ([[("full_name", JValue.str "u/a"), ("archived", JValue.bool false),
           ("fork", JValue.bool false)]].map Except.ok
          ++ Except.ok [("full_name", JValue.str "u/b")] ::
            [Except.ok [("full_name", JValue.str "u/c"),
              ("archived", JValue.bool false), ("fork", JValue.bool false)]])).fault
        = some (.keyError "archived")
    ∧ (runPipeline ([] ++ field_filter "archived" (JValue.bool false) ::
          [field_filter "fork" (JValue.bool false)]) FmtKind.fullName
        ([[("full_name", JValue.str "u/a"), ("archived", JValue.bool false),
           ("fork", JValue.bool false)]].map Except.ok
          ++ Except.ok [("full_name", JValue.str "u/b")] ::
            [Except.ok [("full_name", JValue.str "u/c"),
              ("archived", JValue.bool false), ("fork", JValue.bool false)]])).emitted
      = (pullLoop ([] ++ field_filter "archived" (JValue.bool false) ::
            [field_filter "fork" (JValue.bool false)]) FmtKind.fullName
          { first := true }
          ([[("full_name", JValue.str "u/a"), ("archived", JValue.bool false),
             ("fork", JValue.bool false)]].map Except.ok)).emitted :=
  claim_C4 [] [field_filter "fork" (JValue.bool false)] "archived"
    (JValue.bool false) FmtKind.fullName
    [[("full_name", JValue.str "u/a"), ("archived", JValue.bool false),
      ("fork", JValue.bool false)]]
    [("full_name", JValue.str "u/b")]
    [Except.ok [("full_name", JValue.str "u/c"),
      ("archived", JValue.bool false), ("fork", JValue.bool false)]]
    [] rfl (fun f hf => absurd hf (List.not_mem_nil f)) (by decide)

/-! ### The array formatter's output shape -/

theorem pullLoop_array_continue (m : List RepoFilter) (stream : List StreamItem) :
    (pullLoop m .array { first := false } stream).output =
      arrayCont (pullLoop m .array { first := false } stream).emitted
    ∧ (pullLoop m .array { first := false } stream).state = { first := false } := by
  induction stream with
  | nil => exact ⟨rfl, rfl⟩
  | cons item rest ih =>
    cases item with
    | error e => exact ⟨rfl, rfl⟩
    | ok r =>
      cases hmc : matcherCall m r with
      | error e => simp [pullLoop, hmc, arrayCont]
      | ok b =>
        cases b
        · simpa [pullLoop, hmc] using ih
        · have hs : fmtShow .array { first := false } r =
              .ok ({ first := false }, ",\n" ++ indentedObj r) := rfl
          simp [pullLoop, hmc, hs, arrayCont, ih.1, ih.2, String.append_assoc]

theorem pullLoop_array_first (m : List RepoFilter) (stream : List StreamItem) :
    (pullLoop m .array { first := true } stream).output =
      arrayEmits (pullLoop m .array { first := true } stream).emitted
    ∧ (pullLoop m .array { first := true } stream).state.first =
      (pullLoop m .array { first := true } stream).emitted.isEmpty := by
  induction stream with
  | nil => exact ⟨rfl, rfl⟩
  | cons item rest ih =>
    cases item with
    | error e => exact ⟨rfl, rfl⟩
    | ok r =>
      cases hmc : matcherCall m r with
      | error e => simp [pullLoop, hmc, arrayEmits]
      | ok b =>
        cases b
        · simpa [pullLoop, hmc] using ih
        · have hs : fmtShow .array { first := true } r =
              .ok ({ first := false }, "\n" ++ indentedObj r) := rfl
          have hc := pullLoop_array_continue m rest
          simp [pullLoop, hmc, hs, arrayEmits, hc.1, hc.2, String.append_assoc]

/-- C5, as stated, is false on the code in one detail: a normal run with
zero emitted records prints `[]` *followed by a newline* (the closing
bracket is printed by `print("]")`), not the bare two characters `[]`. -/
theorem claim_C5_counterexample :
    (runPipeline [] FmtKind.array []).fault = none
    ∧ (runPipeline [] FmtKind.array []).output ≠ "[]"
    ∧ (runPipeline [] FmtKind.array []).output = "[]" ++ "\n" :=
  ⟨rfl, by decide, by decide⟩

/-- C5 (amended): under the JSON-array formatter, a normal (non-faulted)
run prints exactly `[]` when nothing was emitted, and otherwise `[`, a
newline, the emitted records pretty-printed with 4-space indentation and
indented 4 spaces, separated by `,` and a newline, then a newline and `]` -
in each case followed by one trailing newline from the final `print`. -/
theorem claim_C5 (m : List RepoFilter) (stream : List StreamItem)
    (hok : (runPipeline m .array stream).fault = none) :
    (runPipeline m .array stream).output =
      match (runPipeline m .array stream).emitted with
      | [] => "[]" ++ "\n"
      | rs => "[" ++ arrayEmits rs ++ "\n" ++ "]" ++ "\n" := by
  have h1 := pullLoop_array_first m stream
  have hfault : (pullLoop m .array { first := true } stream).fault = none := hok
  have hrw : (runPipeline m FmtKind.array stream).emitted
      = (pullLoop m .array { first := true } stream).emitted := rfl
  have hout : (runPipeline m FmtKind.array stream).output
      = "[" ++ (pullLoop m .array { first := true } stream).output
        ++ fmtExit .array (pullLoop m .array { first := true } stream).state
            (pullLoop m .array { first := true } stream).fault.isSome := rfl
  rw [hout, hrw, hfault, h1.1]
  cases hem : (pullLoop m .array { first := true } stream).emitted with
  | nil =>
    have hst : (pullLoop m .array { first := true } stream).state.first = true := by
      rw [h1.2, hem]; rfl
    show "[" ++ arrayEmits [] ++ fmtExit .array
        (pullLoop m .array { first := true } stream).state false = _
    simp only [fmtExit, hst, if_true]
    decide
  | cons r rs =>
    have hst : (pullLoop m .array { first := true } stream).state.first = false := by
      rw [h1.2, hem]; rfl
    show "[" ++ arrayEmits (r :: rs) ++ fmtExit .array
        (pullLoop m .array { first := true } stream).state false = _
    simp only [fmtExit, hst, Bool.false_eq_true, if_false]
    have lit : ("\n" : String) ++ "]\n" = "\n" ++ "]" ++ "\n" := by decide
    rw [lit]
    simp [String.append_assoc]

/-- Witness for C5 against an empty matcher and a single one-field record. -/
theorem claim_C5_witness :
    (runPipeline [] FmtKind.array [Except.ok [("a", JValue.num 1)]]).output =
      match (runPipeline [] FmtKind.array
          [Except.ok [("a", JValue.num 1)]]).emitted with
      | [] => "[]" ++ "\n"
      | rs => "[" ++ arrayEmits rs ++ "\n" ++ "]" ++ "\n" :=
  claim_C5 [] [Except.ok [("a", JValue.num 1)]] rfl

/-- C6: under the JSON-array formatter, a run aborted by a propagating
fault leaves as its total printed output exactly the opening `[` followed
by the emitted records pretty-printed with 4-space indentation and
indented 4 spaces, the first preceded by a newline and each further one by
`,` and a newline - and no closing `]` (the faulted `__exit__` prints
nothing). -/
theorem claim_C6 (m : List RepoFilter) (stream : List StreamItem) (e : PyErr)
    (hf : (runPipeline m .array stream).fault = some e) :
    (runPipeline m .array stream).output =
      "[" ++ arrayEmits (runPipeline m .array stream).emitted := by
  have h1 := pullLoop_array_first m stream
  have hfault : (pullLoop m .array { first := true } stream).fault = some e := hf
  show "[" ++ (pullLoop m .array { first := true } stream).output
      ++ fmtExit .array (pullLoop m .array { first := true } stream).state
          (pullLoop m .array { first := true } stream).fault.isSome = _
  rw [hfault, h1.1]
  show "[" ++ arrayEmits (pullLoop m .array { first := true } stream).emitted
      ++ "" = _
  rw [String.append_empty]
  rfl

/-- Witness for C6: a transport fault after one emitted record. -/
theorem claim_C6_witness :
    (runPipeline [] FmtKind.array
        [Except.ok [("a", JValue.num 1)], Except.error PyErr.typeError]).output =
      "[" ++ arrayEmits (runPipeline [] FmtKind.array
        [Except.ok [("a", JValue.num 1)], Except.error PyErr.typeError]).emitted :=
  claim_C6 [] [Except.ok [("a", JValue.num 1)], Except.error PyErr.typeError]
    PyErr.typeError rfl

/-! ### Claims about the orchestration in `main` -/

/-- C7: combining a visibility option or an affiliation option with at
least one positional owner argument raises a usage error before anything
else happens: the client is never constructed, no fetch is performed, and
no output is produced. -/
theorem claim_C7 (opts : Opts) (myRepos : List Repo)
    (ownerRepos : String → List Repo) (howner : opts.owner ≠ [])
    (hopt : opts.visibility.isSome = true ∨ opts.affiliation.isSome = true) :
    (mainModel opts myRepos ownerRepos).usageError.isSome = true
    ∧ (mainModel opts myRepos ownerRepos).clientConstructed = false
    ∧ (mainModel opts myRepos ownerRepos).fetchCalls = []
    ∧ (mainModel opts myRepos ownerRepos).output = ""
    ∧ (mainModel opts myRepos ownerRepos).emitted = [] := by
  have hne : opts.owner.isEmpty = false := by
    cases ho : opts.owner with
    | nil => exact absurd ho howner
    | cons a l => rfl
  cases hv : opts.visibility.isSome with
  | true =>
    rw [mainModel]
    simp [hv, hne]
  | false =>
    have ha : opts.affiliation.isSome = true := by
      rcases hopt with h | h
      · rw [hv] at h; exact absurd h Bool.false_ne_true
      · exact h
    rw [mainModel]
    simp [hv, ha, hne]

/-- Witness for C7: `--public-only` together with the owner `"alice"`. -/
theorem claim_C7_witness :
    (mainModel { defaultOpts with owner := ["alice"], visibility := some "public" }
      [] (fun _ => [])).usageError.isSome = true
    ∧ (mainModel { defaultOpts with owner := ["alice"], visibility := some "public" }
      [] (fun _ => [])).clientConstructed = false
    ∧ (mainModel { defaultOpts with owner := ["alice"], visibility := some "public" }
      [] (fun _ => [])).fetchCalls = []
    ∧ (mainModel { defaultOpts with owner := ["alice"], visibility := some "public" }
      [] (fun _ => [])).output = ""
    ∧ (mainModel { defaultOpts with owner := ["alice"], visibility := some "public" }
      [] (fun _ => [])).emitted = [] :=
  claim_C7 { defaultOpts with owner := ["alice"], visibility := some "public" }
    [] (fun _ => []) (by decide) (Or.inl rfl)

/-- C9: in named-owner mode (without visibility/affiliation refinements),
the record sequence presented to the matcher is the per-owner streams
concatenated in exactly the command-line order, with one fetch per owner
argument in that order, and no cross-owner deduplication: for any
characteristic predicate, the number of matching records in the combined
sequence is the sum of the per-owner counts. -/
theorem claim_C9 (opts : Opts) (myRepos : List Repo)
    (ownerRepos : String → List Repo) (howner : opts.owner ≠ [])
    (hvis : opts.visibility = none) (haff : opts.affiliation = none) :
    (mainModel opts myRepos ownerRepos).source = opts.owner.flatMap ownerRepos
    ∧ (mainModel opts myRepos ownerRepos).fetchCalls
        = opts.owner.map FetchCall.reposForOwner
    ∧ ∀ g : Repo → Bool,
        ((mainModel opts myRepos ownerRepos).source.countP g
          = (opts.owner.map (fun o => (ownerRepos o).countP g)).sum) := by
  have hne : opts.owner.isEmpty = false := by
    cases ho : opts.owner with
    | nil => exact absurd ho howner
    | cons a l => rfl
  have hsrc : (mainModel opts myRepos ownerRepos).source
      = opts.owner.flatMap ownerRepos := by
    rw [mainModel]
    simp [hvis, haff, hne, sourceRepos]
  have hcalls : (mainModel opts myRepos ownerRepos).fetchCalls
      = opts.owner.map FetchCall.reposForOwner := by
    rw [mainModel]
    simp [hvis, haff, hne]
  refine ⟨hsrc, hcalls, ?_⟩
  intro g
  rw [hsrc]
  induction opts.owner with
  | nil => rfl
  | cons o os ih =>
    rw [List.flatMap_cons, List.countP_append, List.map_cons, List.sum_cons, ih]

/-- Witness for C9: two owners sharing one identical repository record;
the record reaches the matcher twice. -/
theorem claim_C9_witness :
    (mainModel { defaultOpts with owner := ["alice", "bob"] } []
        (fun _ => [[("full_name", JValue.str "shared/repo")]])).source
      = ["alice", "bob"].flatMap
          (fun _ => [[("full_name", JValue.str "shared/repo")]])
    ∧ (mainModel { defaultOpts with owner := ["alice", "bob"] } []
        (fun _ => [[("full_name", JValue.str "shared/repo")]])).fetchCalls
      = ["alice", "bob"].map FetchCall.reposForOwner
    ∧ (mainModel { defaultOpts with owner := ["alice", "bob"] } []
        (fun _ => [[("full_name", JValue.str "shared/repo")]])).source.countP
          (fun _ => true)
      = (["alice", "bob"].map
          (fun _ => ([[("full_name", JValue.str "shared/repo")]] :
            List Repo).countP (fun _ => true))).sum :=
  ⟨(claim_C9 { defaultOpts with owner := ["alice", "bob"] } []
      (fun _ => [[("full_name", JValue.str "shared/repo")]])
      (by decide) rfl rfl).1,
   (claim_C9 { defaultOpts with owner := ["alice", "bob"] } []
      (fun _ => [[("full_name", JValue.str "shared/repo")]])
      (by decide) rfl rfl).2.1,
   (claim_C9 { defaultOpts with owner := ["alice", "bob"] } []
      (fun _ => [[("full_name", JValue.str "shared/repo")]])
      (by decide) rfl rfl).2.2 (fun _ => true)⟩

end Repolist

